import Mathlib

/-!
Verification development for the neural-network graph builder
(`SimpleNNNetworkGraph` in `graph.py`).

The Python class reads a JSON network model and builds a `networkx.DiGraph`
whose nodes and edges carry visual attributes.  We embed the build pipeline
(`_create_graph`, `_add_projection`, `_get_edge_attributes`,
`_format_edge_info`, `_add_input_edge`, `_update_node_shapes`,
`_convert_color`) as pure Lean functions.  Python dictionaries become
association lists (JSON objects preserve insertion order and have unique
keys after parsing); a `networkx.DiGraph` becomes an association list of
nodes and one of directed edges keyed by ordered node pairs (at most one
edge per ordered pair, `add_edge` replacing the attributes of an existing
edge); Python exceptions (KeyError, AttributeError, ValueError, IndexError)
become an explicit error type threaded with `Except`.
-/

deriving instance DecidableEq for Except

namespace NNGraph

/-- A color value: either a matplotlib named color string (the source uses
the literals "blue", "red", "yellow") or an RGBA tuple as produced by
`to_rgba`. -/
inductive Color where
  | named (s : String)
  | rgba (r g b a : ℚ)
deriving DecidableEq, Repr

/-- The Python exceptions that the build code can raise. -/
inductive PyError where
  | keyError (k : String)
  | attributeError (msg : String)
  | valueError (msg : String)
  | indexError
deriving DecidableEq, Repr

/-- Embeds `_convert_color` composed with the parsing of the color string:
the argument is the list of numeric components of the space-separated
"r g b" / "r g b a" string.  `to_rgba` accepts a 3-tuple (alpha defaults
to 1) or a 4-tuple, and raises `ValueError` for any other arity or for a
component outside [0, 1]. -/
def convertColor (components : List ℚ) : Except PyError Color :=
  if components.all (fun x => decide (0 ≤ x) && decide (x ≤ 1)) then
    match components with
    | [r, g, b] => .ok (.rgba r g b 1)
    | [r, g, b, a] => .ok (.rgba r g b a)
    | _ => .error (.valueError "to_rgba")
  else .error (.valueError "to_rgba")

/-- One entry of the model's `populations` map: the parsed components of
`properties.color` and the declared `size`. -/
structure PopulationProps where
  color : List ℚ
  size : ℚ
deriving DecidableEq, Repr

/-- One entry of the model's `inputs` map.  Only the `population` (target
id) field is consumed by the build; `input_source` is read but unused. -/
structure InputInfo where
  population : String
deriving DecidableEq, Repr

/-- One entry of the model's `projections` map.  `synapse` is `none` when
the key is absent from the JSON object (the code defaults it to "generic"
via `proj.get`).  `probability` collapses the chained lookup
`proj.get('random_connectivity', {}).get('probability', 1)`: `none` means
either the `random_connectivity` object or its `probability` key is absent.
`weight` and `delay` hold the displayed (string) rendering of the JSON
numbers, `none` when absent. -/
structure Projection where
  presynaptic : String
  postsynaptic : String
  synapse : Option String
  probability : Option ℚ
  directionality : Option String
  weight : Option String
  delay : Option String
deriving DecidableEq, Repr

/-- The network object under the single top-level network id.
`input_sources` carries no content the build consumes (the line that read
its parameters is commented out), but the key itself is looked up whenever
an input entry is processed, so only its presence matters. -/
structure Network where
  populations : List (String × PopulationProps)
  inputs : Option (List (String × InputInfo))
  input_sources : Option Unit
  projections : List Projection
deriving DecidableEq, Repr

/-- The attribute dictionary of a graph node.  A node created implicitly by
`add_edge` (an endpoint that was never `add_node`-ed) has an empty
attribute dictionary, hence every field is optional. -/
structure NodeAttrs where
  color : Option Color
  shape : Option String
  size : Option ℚ
deriving DecidableEq, Repr

/-- The attribute dictionary of a graph edge.  Both `add_edge` call sites
always set `synapse`, `style`, `arrowstyle` and `color`; `arrowstyle`'s
inner `Option` distinguishes the Python value `None` (the gabaSyn case)
from an arrow string; `info` and `synapse_category` are absent (`none`) on
the edges added for inputs. -/
structure EdgeAttrs where
  synapse : String
  style : String
  arrowstyle : Option String
  color : Color
  info : Option String
  synapse_category : Option String
deriving DecidableEq, Repr

/-- Looks a key up in an association list (a parsed-JSON / Python dict). -/
def getKey? {α β : Type} [DecidableEq α] (l : List (α × β)) (k : α) : Option β :=
  match l with
  | [] => none
  | (k₀, v₀) :: t => if k₀ = k then some v₀ else getKey? t k

/-- Sets a key in an association list: replaces the value in place when the
key is present, appends otherwise (Python dict assignment). -/
def setKey {α β : Type} [DecidableEq α] (l : List (α × β)) (k : α) (v : β) : List (α × β) :=
  match l with
  | [] => [(k, v)]
  | (k₀, v₀) :: t => if k₀ = k then (k, v) :: t else (k₀, v₀) :: setKey t k v

/-- The embedded `networkx.DiGraph`: nodes and directed edges in insertion
order, each edge keyed by its ordered endpoint pair. -/
structure Graph where
  nodes : List (String × NodeAttrs)
  edges : List ((String × String) × EdgeAttrs)
deriving DecidableEq, Repr

/-- `G.add_node(id, **attrs)`: inserts the node or replaces its attributes
(both call sites pass the complete attribute set). -/
def addNode (G : Graph) (id : String) (attrs : NodeAttrs) : Graph :=
  { G with nodes := setKey G.nodes id attrs }

/-- `add_edge` silently creates a missing endpoint as a node with an empty
attribute dictionary. -/
def ensureNode (G : Graph) (id : String) : Graph :=
  if (getKey? G.nodes id).isSome then G
  else { G with nodes := G.nodes ++ [(id, ⟨none, none, none⟩)] }

/-- `G.add_edge(u, v, **attrs)`: creates missing endpoint nodes, then
inserts or replaces the edge for the ordered pair `(u, v)`.  (networkx
updates the existing attribute dictionary; in every reachable build an
overwritten edge receives a complete projection attribute set, so replace
and update agree — see the build functions below.) -/
def addEdge (G : Graph) (u v : String) (attrs : EdgeAttrs) : Graph :=
  let G₁ := ensureNode G u
  let G₂ := ensureNode G₁ v
  { G₂ with edges := setKey G₂.edges (u, v) attrs }

/-- A value of the `node_synapse_types` dictionary: normally a Python set
of category strings (kept as a duplicate-free list in insertion order),
but input nodes are assigned the plain string "dummy". -/
inductive SynTypes where
  | set (s : List String)
  | str (v : String)
deriving DecidableEq, Repr

/-- Whether the first list occurs at the front of the second. -/
def isFrontOf {α : Type} [DecidableEq α] : List α → List α → Bool
  | [], _ => true
  | _ :: _, [] => false
  | a :: l₁, b :: l₂ => decide (a = b) && isFrontOf l₁ l₂

/-- Whether the first list occurs contiguously inside the second (Python
substring containment for strings, via their character lists). -/
def isInsideOf {α : Type} [DecidableEq α] (needle hay : List α) : Bool :=
  match hay with
  | [] => isFrontOf needle []
  | _ :: t => isFrontOf needle hay || isInsideOf needle t

/-- Python membership `c in st`: set membership for a set, substring
containment for a string. -/
def synMem (st : SynTypes) (c : String) : Bool :=
  match st with
  | .set s => s.contains c
  | .str v => isInsideOf c.toList v.toList

/-- Python `st.add(c)`: adds to a set (no effect when present), raises
`AttributeError` on a string. -/
def synAdd (st : SynTypes) (c : String) : Except PyError SynTypes :=
  match st with
  | .set s => .ok (.set (if s.contains c then s else s ++ [c]))
  | .str _ => .error (.attributeError "str.add")

/-- The `node_shapes` dictionary of `_create_graph`, as a total function
(all four keys are present and only these four are ever looked up). -/
def nodeShape (k : String) : String :=
  if k = "excitatory" then "^"
  else if k = "inhibitory" then "o"
  else if k = "generic" then "s"
  else if k = "input" then "h"
  else ""

/-- The style local variable of `_add_projection`: "dashed" when the
connectivity probability is present and strictly below 1, else "solid". -/
def projStyle (proj : Projection) : String :=
  if proj.probability.getD 1 < 1 then "dashed" else "solid"

/-- Embeds `_format_edge_info`: the weight/delay label of an edge. -/
def formatEdgeInfo (proj : Projection) : String :=
  match proj.weight, proj.delay with
  | some w, some d => "Weight: " ++ w ++ ", Delay: " ++ d
  | some w, none => "Weight: " ++ w
  | none, some d => "Delay: " ++ d
  | none, none => ""

/-- Embeds `_get_edge_attributes`.  Every branch's attribute dictionary
starts with `proj['synapse']`, which raises `KeyError` when the field is
absent — even though the dispatch value `synapse_type` was computed with a
default.  The fallback branch looks the presynaptic population up in the
model's `populations` map (`KeyError` when absent) and converts its
declared color. -/
def getEdgeAttributes (synapse_type : String) (proj : Projection) (style : String)
    (network : Network) : Except PyError EdgeAttrs :=
  match proj.synapse with
  | none => .error (.keyError "synapse")
  | some syn =>
    if synapse_type = "ampaSyn" then
      .ok { synapse := syn, style := style, arrowstyle := some "-|>", color := .named "blue",
            info := some (formatEdgeInfo proj), synapse_category := some "excitatory" }
    else if synapse_type = "gabaSyn" then
      .ok { synapse := syn, style := style, arrowstyle := none, color := .named "red",
            info := some (formatEdgeInfo proj), synapse_category := some "inhibitory" }
    else
      match getKey? network.populations proj.presynaptic with
      | none => .error (.keyError proj.presynaptic)
      | some pop => do
        let c ← convertColor pop.color
        .ok { synapse := syn, style := style, arrowstyle := some "->", color := c,
              info := some (formatEdgeInfo proj), synapse_category := some "generic" }

/-- Embeds `_add_input_edge`: one solid yellow directed edge from the input
node to its target population.  The attribute dictionary passed to
`add_edge` has no `info` and no `synapse_category` key.  The
`input_sources` parameter is accepted but unused (the line reading it is
commented out in the source). -/
def addInputEdge (G : Graph) (input_id : String) (input_info : InputInfo)
    (input_sources : Unit) : Graph :=
  addEdge G input_id input_info.population
    { synapse := "input", style := "solid", arrowstyle := some "->",
      color := .named "yellow", info := none, synapse_category := none }

/-- The loop body of `_update_node_shapes` for one node: the precedence
cascade over the node's accumulated synapse types, overwriting `shape`
always and `color` in the pure-excitatory / pure-inhibitory branches. -/
def classifyShapeColor (synapse_types : SynTypes) (attrs : NodeAttrs) : NodeAttrs :=
  if synMem synapse_types "excitatory" && synMem synapse_types "inhibitory" then
    { attrs with shape := some (nodeShape "generic") }
  else if synMem synapse_types "excitatory" then
    { attrs with shape := some (nodeShape "excitatory"), color := some (.named "blue") }
  else if synMem synapse_types "inhibitory" then
    { attrs with shape := some (nodeShape "inhibitory"), color := some (.named "red") }
  else if synMem synapse_types "dummy" then
    { attrs with shape := some (nodeShape "input") }
  else
    { attrs with shape := some (nodeShape "generic") }

/-- Embeds `_update_node_shapes`: applies the classification cascade to
every node recorded in `node_synapse_types` (the `G.nodes[node]` lookup
raises `KeyError` for a node absent from the graph). -/
def updateNodeShapes (G : Graph) (sts : List (String × SynTypes)) : Except PyError Graph :=
  match sts with
  | [] => .ok G
  | (node, st) :: rest =>
    match getKey? G.nodes node with
    | none => .error (.keyError node)
    | some attrs => updateNodeShapes (addNode G node (classifyShapeColor st attrs)) rest

/-- Embeds `_add_projection`: resolve the edge attributes, record the
edge's category in the presynaptic node's accumulated set, then add one
edge — or two, pre→post and post→pre with the same resolved attributes,
when `directionality` equals "bidirectional". -/
def addProjection (G : Graph) (proj : Projection) (sts : List (String × SynTypes))
    (network : Network) : Except PyError (Graph × List (String × SynTypes)) := do
  let pre_pop := proj.presynaptic
  let post_pop := proj.postsynaptic
  let synapse_type := proj.synapse.getD "generic"
  let style := projStyle proj
  let edge_attrs ← getEdgeAttributes synapse_type proj style network
  match getKey? sts pre_pop with
  | none => .error (.keyError pre_pop)
  | some st =>
    match edge_attrs.synapse_category with
    | none => .error (.keyError "synapse_category")
    | some cat => do
      let st₁ ← synAdd st cat
      let sts₁ := setKey sts pre_pop st₁
      if proj.directionality = some "bidirectional" then
        let G₁ := addEdge G pre_pop post_pop edge_attrs
        let G₂ := addEdge G₁ post_pop pre_pop edge_attrs
        .ok (G₂, sts₁)
      else
        .ok (addEdge G pre_pop post_pop edge_attrs, sts₁)

/-- The population loop of `_create_graph`: one node per population with
its converted color, the default "generic" shape and its declared size. -/
def addPopulations (G : Graph) (pops : List (String × PopulationProps)) :
    Except PyError Graph :=
  match pops with
  | [] => .ok G
  | (pop_id, pop) :: rest => do
    let c ← convertColor pop.color
    addPopulations
      (addNode G pop_id { color := some c, shape := some (nodeShape "generic"),
                          size := some pop.size }) rest

/-- The inputs loop of `_create_graph`: for each input entry, add the input
node (converted color of "1 1 0", shape "h", size 2), look up the
`input_sources` key of the network (a `KeyError` when absent), add the
input edge, and mark the input node with the string "dummy" in
`node_synapse_types`. -/
def addInputs (G : Graph) (sts : List (String × SynTypes))
    (inputs : List (String × InputInfo)) (network : Network) :
    Except PyError (Graph × List (String × SynTypes)) :=
  match inputs with
  | [] => .ok (G, sts)
  | (input_id, input_info) :: rest => do
    let c ← convertColor [1, 1, 0]
    let G₁ := addNode G input_id
      { color := some c, shape := some (nodeShape "input"), size := some 2 }
    match network.input_sources with
    | none => .error (.keyError "input_sources")
    | some u =>
      addInputs (addInputEdge G₁ input_id input_info u)
        (setKey sts input_id (.str "dummy")) rest network

/-- The projections loop of `_create_graph`. -/
def addProjections (G : Graph) (sts : List (String × SynTypes))
    (projs : List Projection) (network : Network) :
    Except PyError (Graph × List (String × SynTypes)) :=
  match projs with
  | [] => .ok (G, sts)
  | p :: rest => do
    let r ← addProjection G p sts network
    addProjections r.1 r.2 rest network

/-- The `if 'inputs' in network and network['inputs']:` block of
`_create_graph`: when the `inputs` key is present with a non-empty value,
run the inputs loop and then the single `_update_node_shapes` call;
otherwise leave the graph and `node_synapse_types` untouched. -/
def inputsPhase (G : Graph) (sts : List (String × SynTypes)) (network : Network) :
    Except PyError (Graph × List (String × SynTypes)) :=
  match network.inputs with
  | some inputs =>
    if inputs = [] then .ok (G, sts)
    else do
      let r ← addInputs G sts inputs network
      let G₂ ← updateNodeShapes r.1 r.2
      .ok (G₂, r.2)
  | none => .ok (G, sts)

/-- The body of `_create_graph` for a given network object, returning the
graph together with the final `node_synapse_types` state.  Faithful to the
source's order: populations first, then — only when the `inputs` key is
present with a non-empty value — the inputs loop immediately followed by
the single `_update_node_shapes` call, and finally the projections loop.
No shape update happens after the projections. -/
def buildSteps (network : Network) :
    Except PyError (Graph × List (String × SynTypes)) := do
  let G₁ ← addPopulations { nodes := [], edges := [] } network.populations
  let sts₀ : List (String × SynTypes) := G₁.nodes.map (fun p => (p.1, .set []))
  let r₁ ← inputsPhase G₁ sts₀ network
  addProjections r₁.1 r₁.2 network.projections network

/-- Embeds `_create_graph`: picks the first top-level network entry
(`list(keys())[0]`, an `IndexError` on an empty model) and builds its
graph. -/
def createGraph (network_data : List (String × Network)) : Except PyError Graph :=
  match network_data with
  | [] => .error .indexError
  | (_, network) :: _ => (buildSteps network).map (fun r => r.1)

/-- Every node of the graph has all three of `color`, `shape`, `size`. -/
def NodesFull (G : Graph) : Prop :=
  ∀ e ∈ G.nodes, e.2.color.isSome ∧ e.2.shape.isSome ∧ e.2.size.isSome

/-- Every edge of the graph either carries both `info` and
`synapse_category` (projection edges) or is an input edge, which carries
neither. -/
def EdgesTagged (G : Graph) : Prop :=
  ∀ e ∈ G.edges,
    (e.2.info.isSome ∧ e.2.synapse_category.isSome) ∨
    (e.2.synapse = "input" ∧ e.2.info = none ∧ e.2.synapse_category = none)

/-- The input entries of a network (empty when the `inputs` key is
absent). -/
def inputEntries (network : Network) : List (String × InputInfo) :=
  match network.inputs with
  | some l => l
  | none => []

/-- Referential validity of a model: every projection's postsynaptic id
and every input entry's target population id names a declared population
or input. -/
def ModelRefsOk (network : Network) : Prop :=
  (∀ p ∈ network.projections,
      p.postsynaptic ∈ network.populations.map Prod.fst ∨
      p.postsynaptic ∈ (inputEntries network).map Prod.fst) ∧
  (∀ e ∈ inputEntries network, e.2.population ∈ network.populations.map Prod.fst)

/-- All population colors of a list convert successfully. -/
def PopsColorsOk (pops : List (String × PopulationProps)) : Prop :=
  ∀ e ∈ pops, ∃ c, convertColor e.2.color = .ok c

/-- The build invariant threaded through the phases of `buildSteps`:
attribute completeness of nodes, the projection/input dichotomy of edge
attributes, and that both the keys of `node_synapse_types` and the ids in
`ids` name existing nodes. -/
structure BuildInv (ids : List String) (G : Graph)
    (sts : List (String × SynTypes)) : Prop where
  nodesFull : NodesFull G
  edgesTagged : EdgesTagged G
  stsKeys : ∀ k, (getKey? sts k).isSome → (getKey? G.nodes k).isSome
  declared : ∀ k, k ∈ ids → (getKey? G.nodes k).isSome

/-- Key uniqueness: every node id and every ordered edge pair occurs at
most once (the defining property of a `networkx.DiGraph`). -/
def KeysNodup (G : Graph) : Prop :=
  (G.nodes.map Prod.fst).Nodup ∧ (G.edges.map Prod.fst).Nodup

/-! Concrete models used to exercise the build. -/

/-- Two populations and a single `ampaSyn` projection P→Q; no inputs. -/
def c1Model : Network :=
  { populations := [("P", { color := [0, 0, 1], size := 10 }),
                    ("Q", { color := [0, 1, 0], size := 10 })],
    inputs := none, input_sources := none,
    projections := [{ presynaptic := "P", postsynaptic := "Q",
                      synapse := some "ampaSyn", probability := none,
                      directionality := none, weight := none, delay := none }] }

/-- One population and a bidirectional `ampaSyn` self-loop P→P. -/
def c2Model : Network :=
  { populations := [("P", { color := [0, 0, 1], size := 10 })],
    inputs := none, input_sources := none,
    projections := [{ presynaptic := "P", postsynaptic := "P",
                      synapse := some "ampaSyn", probability := none,
                      directionality := some "bidirectional", weight := none, delay := none }] }

/-- A projection whose postsynaptic id "R" is not a declared population. -/
def c3Model : Network :=
  { populations := [("P", { color := [0, 0, 1], size := 10 })],
    inputs := none, input_sources := none,
    projections := [{ presynaptic := "P", postsynaptic := "R",
                      synapse := some "ampaSyn", probability := none,
                      directionality := none, weight := none, delay := none }] }

/-- A projection with no `synapse` key at all (and no other optional
field). -/
def noSynapseProj : Projection :=
  { presynaptic := "P", postsynaptic := "Q", synapse := none, probability := none,
    directionality := none, weight := none, delay := none }

/-- A projection whose only present optional field is `synapse`. -/
def onlySynapseProj : Projection :=
  { presynaptic := "P", postsynaptic := "Q", synapse := some "ampaSyn",
    probability := none, directionality := none, weight := none, delay := none }

/-- One population and one input entry targeting it. -/
def c7Model : Network :=
  { populations := [("Q", { color := [0, 1, 0], size := 10 })],
    inputs := some [("I0", { population := "Q" })], input_sources := some (),
    projections := [] }

/-- Two populations and a single projection of explicit "generic" kind. -/
def c8Model : Network :=
  { populations := [("P", { color := [0, 0, 1], size := 10 }),
                    ("Q", { color := [0, 1, 0], size := 10 })],
    inputs := none, input_sources := none,
    projections := [{ presynaptic := "P", postsynaptic := "Q",
                      synapse := some "generic", probability := none,
                      directionality := none, weight := none, delay := none }] }

/-- Node attributes of the population "P" (color "0 0 1", size 10) as the
population loop creates them. -/
def pAttrs : NodeAttrs :=
  { color := some (.rgba 0 0 1 1), shape := some "s", size := some 10 }

/-- Node attributes of the population "Q" (color "0 1 0", size 10). -/
def qAttrs : NodeAttrs :=
  { color := some (.rgba 0 1 0 1), shape := some "s", size := some 10 }

/-- The two-population graph as it stands right before the projection
loop. -/
def twoPopGraph : Graph := { nodes := [("P", pAttrs), ("Q", qAttrs)], edges := [] }

/-- The matching initial `node_synapse_types` state. -/
def twoPopSts : List (String × SynTypes) := [("P", .set []), ("Q", .set [])]

/-- A bidirectional `ampaSyn` projection P→Q. -/
def bidiProj : Projection :=
  { presynaptic := "P", postsynaptic := "Q", synapse := some "ampaSyn", probability := none,
    directionality := some "bidirectional", weight := none, delay := none }

/-- An explicit generic-kind projection P→Q. -/
def genericProj : Projection :=
  { presynaptic := "P", postsynaptic := "Q", synapse := some "generic", probability := none,
    directionality := none, weight := none, delay := none }

/-- The one-population graph and state before the projection loop of
`c2Model`. -/
def onePopGraph : Graph := { nodes := [("P", pAttrs)], edges := [] }

/-- The matching initial `node_synapse_types` state. -/
def onePopSts : List (String × SynTypes) := [("P", .set [])]

/-- A bidirectional `ampaSyn` self-loop P→P. -/
def selfLoopProj : Projection :=
  { presynaptic := "P", postsynaptic := "P", synapse := some "ampaSyn", probability := none,
    directionality := some "bidirectional", weight := none, delay := none }

/-- The attributes every solid `ampaSyn` edge resolves to when no weight
or delay is present. -/
def ampaAttrs : EdgeAttrs :=
  { synapse := "ampaSyn", style := "solid", arrowstyle := some "-|>",
    color := .named "blue", info := some "", synapse_category := some "excitatory" }

/-- The attributes the generic edge of `c8Model` resolves to. -/
def genEdgeAttrs : EdgeAttrs :=
  { synapse := "generic", style := "solid", arrowstyle := some "->",
    color := .rgba 0 0 1 1, info := some "", synapse_category := some "generic" }

/-- The two-population graph after adding the bidirectional projection. -/
def twoPopGraphBidi : Graph :=
  { nodes := [("P", pAttrs), ("Q", qAttrs)],
    edges := [(("P", "Q"), ampaAttrs), (("Q", "P"), ampaAttrs)] }

/-- The two-population graph after adding the generic projection. -/
def twoPopGraphGen : Graph :=
  { nodes := [("P", pAttrs), ("Q", qAttrs)], edges := [(("P", "Q"), genEdgeAttrs)] }

/-- The one-population graph after adding the bidirectional self-loop. -/
def onePopGraphLoop : Graph :=
  { nodes := [("P", pAttrs)], edges := [(("P", "P"), ampaAttrs)] }

/-- A model whose single projection has the unknown presynaptic id "X". -/
def c3bModel : Network :=
  { populations := [("P", { color := [0, 0, 1], size := 10 })],
    inputs := none, input_sources := none,
    projections := [{ presynaptic := "X", postsynaptic := "P",
                      synapse := some "ampaSyn", probability := none,
                      directionality := none, weight := none, delay := none }] }

/-- The graph built from `c7Model`. -/
def c7Graph : Graph :=
  { nodes := [("Q", { color := some (.rgba 0 1 0 1), shape := some "s", size := some 10 }),
              ("I0", { color := some (.rgba 1 1 0 1), shape := some "h", size := some 2 })],
    edges := [(("I0", "Q"),
      { synapse := "input", style := "solid", arrowstyle := some "->",
        color := .named "yellow", info := none, synapse_category := none })] }

/-- The input edge of `c7Graph`, as a keyed entry. -/
def inputEdgeW : (String × String) × EdgeAttrs :=
  (("I0", "Q"),
   { synapse := "input", style := "solid", arrowstyle := some "->",
     color := .named "yellow", info := none, synapse_category := none })

/-! Association-list lemmas. -/

theorem getKey?_setKey_self {α β : Type} [DecidableEq α] (l : List (α × β)) (k : α) (v : β) :
    getKey? (setKey l k v) k = some v := by
  induction l with
  | nil => simp [setKey, getKey?]
  | cons e t ih =>
    obtain ⟨k₀, v₀⟩ := e
    by_cases h : k₀ = k <;> simp [setKey, getKey?, h, ih]

theorem getKey?_setKey_of_ne {α β : Type} [DecidableEq α] (l : List (α × β)) (k k' : α) (v : β)
    (h : k' ≠ k) : getKey? (setKey l k v) k' = getKey? l k' := by
  have h' : ¬(k = k') := fun hh => h hh.symm
  induction l with
  | nil => simp [setKey, getKey?, h']
  | cons e t ih =>
    obtain ⟨k₀, v₀⟩ := e
    by_cases h₀ : k₀ = k
    · simp [setKey, getKey?, h₀, h']
    · simp [setKey, getKey?, h₀, ih]

theorem setKey_of_getKey?_none {α β : Type} [DecidableEq α] (l : List (α × β)) (k : α) (v : β)
    (h : getKey? l k = none) : setKey l k v = l ++ [(k, v)] := by
  induction l with
  | nil => simp [setKey]
  | cons e t ih =>
    obtain ⟨k₀, v₀⟩ := e
    by_cases h₀ : k₀ = k
    · simp [getKey?, h₀] at h
    · simp [getKey?, h₀] at h
      simp [setKey, h₀, ih h]

theorem getKey?_eq_none_iff {α β : Type} [DecidableEq α] (l : List (α × β)) (k : α) :
    getKey? l k = none ↔ k ∉ l.map Prod.fst := by
  induction l with
  | nil => simp [getKey?]
  | cons e t ih =>
    obtain ⟨k₀, v₀⟩ := e
    by_cases h₀ : k₀ = k
    · simp [getKey?, h₀]
    · have h₁ : ¬(k = k₀) := fun hh => h₀ hh.symm
      simp [getKey?, h₀, h₁, ih]

theorem getKey?_some_mem {α β : Type} [DecidableEq α] (l : List (α × β)) (k : α) (v : β)
    (h : getKey? l k = some v) : (k, v) ∈ l := by
  induction l with
  | nil => simp [getKey?] at h
  | cons e t ih =>
    obtain ⟨k₀, v₀⟩ := e
    by_cases h₀ : k₀ = k
    · simp [getKey?, h₀] at h
      subst h₀
      subst h
      exact List.mem_cons_self _ _
    · simp [getKey?, h₀] at h
      exact List.mem_cons_of_mem _ (ih h)

theorem mem_setKey {α β : Type} [DecidableEq α] (l : List (α × β)) (k : α) (v : β) (e : α × β)
    (h : e ∈ setKey l k v) : e = (k, v) ∨ e ∈ l := by
  induction l with
  | nil => simpa [setKey] using h
  | cons e₀ t ih =>
    obtain ⟨k₀, v₀⟩ := e₀
    by_cases h₀ : k₀ = k
    · simp [setKey, h₀] at h
      rcases h with h | h
      · exact Or.inl (by simp [h])
      · exact Or.inr (List.mem_cons_of_mem _ h)
    · simp only [setKey, h₀, if_false, List.mem_cons] at h
      rcases h with h | h
      · exact Or.inr (by simp [h])
      · rcases ih h with h₁ | h₁
        · exact Or.inl h₁
        · exact Or.inr (List.mem_cons_of_mem _ h₁)

theorem map_fst_setKey {α β : Type} [DecidableEq α] (l : List (α × β)) (k : α) (v : β) :
    (setKey l k v).map Prod.fst =
      if k ∈ l.map Prod.fst then l.map Prod.fst else l.map Prod.fst ++ [k] := by
  induction l with
  | nil => simp [setKey]
  | cons e t ih =>
    obtain ⟨k₀, v₀⟩ := e
    by_cases h₀ : k₀ = k
    · simp [setKey, h₀]
    · have h₁ : ¬(k = k₀) := fun hh => h₀ hh.symm
      simp only [setKey, h₀, if_false, List.map_cons, ih]
      by_cases h₂ : k ∈ t.map Prod.fst <;> simp [h₁, h₂]

theorem nodup_map_fst_setKey {α β : Type} [DecidableEq α] (l : List (α × β)) (k : α) (v : β)
    (h : (l.map Prod.fst).Nodup) : ((setKey l k v).map Prod.fst).Nodup := by
  rw [map_fst_setKey]
  by_cases h₁ : k ∈ l.map Prod.fst
  · simpa [h₁] using h
  · simp only [h₁, if_false]
    refine List.Nodup.append h (List.nodup_singleton k) ?_
    intro a ha hak
    simp only [List.mem_singleton] at hak
    exact h₁ (hak ▸ ha)

theorem length_setKey_of_some {α β : Type} [DecidableEq α] (l : List (α × β)) (k : α)
    (v w : β) (h : getKey? l k = some w) : (setKey l k v).length = l.length := by
  induction l with
  | nil => simp [getKey?] at h
  | cons e t ih =>
    obtain ⟨k₀, v₀⟩ := e
    by_cases h₀ : k₀ = k
    · simp [setKey, h₀]
    · simp [getKey?, h₀] at h
      simp [setKey, h₀, ih h]

theorem countP_key_eq_zero {α β : Type} [DecidableEq α] (l : List (α × β)) (k : α)
    (h : getKey? l k = none) : l.countP (fun e => decide (e.1 = k)) = 0 := by
  rw [List.countP_eq_zero]
  intro e he
  have h₁ := (getKey?_eq_none_iff l k).mp h
  simp only [decide_eq_true_eq]
  intro hek
  exact h₁ (hek ▸ List.mem_map_of_mem Prod.fst he)

theorem getKey?_isSome_setKey {α β : Type} [DecidableEq α] (l : List (α × β)) (k k' : α)
    (v : β) : (getKey? (setKey l k v) k').isSome ↔ k' = k ∨ (getKey? l k').isSome := by
  by_cases h : k' = k
  · subst h
    simp [getKey?_setKey_self]
  · simp [getKey?_setKey_of_ne l k k' v h, h]

theorem getKey?_map_const_isSome {α β γ : Type} [DecidableEq α] (l : List (α × β)) (k : α)
    (f : α × β → γ) :
    (getKey? (l.map (fun p => (p.1, f p))) k).isSome = (getKey? l k).isSome := by
  induction l with
  | nil => simp [getKey?]
  | cons e t ih =>
    obtain ⟨k₀, v₀⟩ := e
    by_cases h : k₀ = k <;> simp [getKey?, h, ih]

/-! Graph-operation lemmas. -/

theorem ensureNode_of_isSome (G : Graph) (id : String)
    (h : (getKey? G.nodes id).isSome) : ensureNode G id = G := by
  simp [ensureNode, h]

theorem addEdge_of_present (G : Graph) (u v : String) (a : EdgeAttrs)
    (hu : (getKey? G.nodes u).isSome) (hv : (getKey? G.nodes v).isSome) :
    addEdge G u v a = { G with edges := setKey G.edges (u, v) a } := by
  simp [addEdge, ensureNode_of_isSome _ _ hu, ensureNode_of_isSome _ _ hv]

theorem getKey?_append_left {α β : Type} [DecidableEq α] (l l₂ : List (α × β)) (k : α)
    (h : (getKey? l k).isSome) : getKey? (l ++ l₂) k = getKey? l k := by
  induction l with
  | nil => simp [getKey?] at h
  | cons e t ih =>
    obtain ⟨k₀, v₀⟩ := e
    by_cases hk : k₀ = k <;> simp_all [getKey?]

theorem ensureNode_nodes_isSome (G : Graph) (id k : String)
    (h : (getKey? G.nodes k).isSome) : (getKey? (ensureNode G id).nodes k).isSome := by
  unfold ensureNode
  by_cases hid : (getKey? G.nodes id).isSome
  · simpa [hid] using h
  · simp only [hid, if_false]
    show (getKey? (G.nodes ++ [(id, ⟨none, none, none⟩)]) k).isSome = true
    rw [getKey?_append_left _ _ _ h]
    exact h

theorem addEdge_nodes (G : Graph) (u v : String) (a : EdgeAttrs) :
    (addEdge G u v a).nodes = (ensureNode (ensureNode G u) v).nodes := rfl

theorem addEdge_nodes_isSome (G : Graph) (u v k : String) (a : EdgeAttrs)
    (h : (getKey? G.nodes k).isSome) : (getKey? (addEdge G u v a).nodes k).isSome := by
  rw [addEdge_nodes]
  exact ensureNode_nodes_isSome _ _ _ (ensureNode_nodes_isSome _ _ _ h)

theorem addNode_nodes_isSome (G : Graph) (id k : String) (a : NodeAttrs)
    (h : (getKey? G.nodes k).isSome) : (getKey? (addNode G id a).nodes k).isSome := by
  unfold addNode
  simp only []
  rw [getKey?_isSome_setKey]
  exact Or.inr h

/-- Any successful result of `_get_edge_attributes` carries an `info`
string and one of the three synapse categories. -/
theorem getEdgeAttributes_ok_tagged (t : String) (proj : Projection) (style : String)
    (network : Network) (a : EdgeAttrs)
    (h : getEdgeAttributes t proj style network = .ok a) :
    a.info.isSome ∧ a.synapse_category.isSome := by
  unfold getEdgeAttributes at h
  cases hs : proj.synapse with
  | none => simp [hs] at h
  | some syn =>
    rw [hs] at h
    by_cases h1 : t = "ampaSyn"
    · simp [h1] at h
      simp [← h]
    · by_cases h2 : t = "gabaSyn"
      · simp [h1, h2] at h
        simp [← h]
      · simp only [h1, h2, if_false] at h
        cases hp : getKey? network.populations proj.presynaptic with
        | none => rw [hp] at h; simp at h
        | some pop =>
          rw [hp] at h
          dsimp only at h
          cases hc : convertColor pop.color with
          | error e =>
            rw [hc] at h
            simp [Bind.bind, Except.bind] at h
          | ok c =>
            rw [hc] at h
            simp [Bind.bind, Except.bind] at h
            simp [← h]

/-- A successful `_add_projection` call decomposes into: a successful
attribute resolve, a set-valued `node_synapse_types` entry for the
presynaptic id receiving the edge's category, and one or two `add_edge`
calls according to the directionality flag. -/
theorem addProjection_ok_elim (G : Graph) (proj : Projection)
    (sts : List (String × SynTypes)) (network : Network) (G' : Graph)
    (sts' : List (String × SynTypes))
    (hok : addProjection G proj sts network = .ok (G', sts')) :
    ∃ attrs st cat st₁,
      getEdgeAttributes (proj.synapse.getD "generic") proj (projStyle proj) network
        = .ok attrs ∧
      getKey? sts proj.presynaptic = some st ∧
      attrs.synapse_category = some cat ∧
      synAdd st cat = .ok st₁ ∧
      sts' = setKey sts proj.presynaptic st₁ ∧
      G' = (if proj.directionality = some "bidirectional" then
              addEdge (addEdge G proj.presynaptic proj.postsynaptic attrs)
                proj.postsynaptic proj.presynaptic attrs
            else addEdge G proj.presynaptic proj.postsynaptic attrs) := by
  unfold addProjection at hok
  dsimp only at hok
  cases hattrs : getEdgeAttributes (proj.synapse.getD "generic") proj (projStyle proj)
      network with
  | error e =>
    rw [hattrs] at hok
    simp [Bind.bind, Except.bind] at hok
  | ok attrs =>
    rw [hattrs] at hok
    simp only [Bind.bind, Except.bind] at hok
    cases hst : getKey? sts proj.presynaptic with
    | none =>
      rw [hst] at hok
      simp at hok
    | some st =>
      rw [hst] at hok
      dsimp only at hok
      cases hcat : attrs.synapse_category with
      | none =>
        rw [hcat] at hok
        simp at hok
      | some cat =>
        rw [hcat] at hok
        dsimp only at hok
        cases hadd : synAdd st cat with
        | error e =>
          rw [hadd] at hok
          simp [Bind.bind, Except.bind] at hok
        | ok st₁ =>
          rw [hadd] at hok
          simp only [Bind.bind, Except.bind] at hok
          refine ⟨attrs, st, cat, st₁, rfl, rfl, hcat, hadd, ?_, ?_⟩
          · by_cases hdir : proj.directionality = some "bidirectional" <;>
              simp only [hdir, if_true, if_false] at hok <;>
              simp only [Except.ok.injEq, Prod.mk.injEq] at hok <;>
              exact hok.2.symm
          · by_cases hdir : proj.directionality = some "bidirectional" <;>
              simp only [hdir, if_true, if_false] at hok ⊢ <;>
              simp only [Except.ok.injEq, Prod.mk.injEq] at hok <;>
              exact hok.1.symm

/-! Key-uniqueness preservation through every build phase. -/

theorem nodup_append_singleton {α : Type} (l : List α) (k : α) (h : l.Nodup)
    (hk : k ∉ l) : (l ++ [k]).Nodup := by
  refine List.Nodup.append h (List.nodup_singleton k) ?_
  intro a ha hak
  simp only [List.mem_singleton] at hak
  exact hk (hak ▸ ha)

theorem keysNodup_addNode (G : Graph) (id : String) (a : NodeAttrs)
    (h : KeysNodup G) : KeysNodup (addNode G id a) :=
  ⟨nodup_map_fst_setKey _ _ _ h.1, h.2⟩

theorem keysNodup_ensureNode (G : Graph) (id : String)
    (h : KeysNodup G) : KeysNodup (ensureNode G id) := by
  unfold ensureNode
  by_cases hid : (getKey? G.nodes id).isSome
  · simpa [hid] using h
  · simp only [hid, if_false]
    refine ⟨?_, h.2⟩
    show ((G.nodes ++ [(id, (⟨none, none, none⟩ : NodeAttrs))]).map Prod.fst).Nodup
    rw [List.map_append]
    refine nodup_append_singleton _ _ h.1 ?_
    simp only [Option.not_isSome_iff_eq_none] at hid
    exact (getKey?_eq_none_iff _ _).mp hid

theorem keysNodup_addEdge (G : Graph) (u v : String) (a : EdgeAttrs)
    (h : KeysNodup G) : KeysNodup (addEdge G u v a) := by
  unfold addEdge
  have h₂ := keysNodup_ensureNode _ v (keysNodup_ensureNode G u h)
  exact ⟨h₂.1, nodup_map_fst_setKey _ _ _ h₂.2⟩

theorem keysNodup_addPopulations (pops : List (String × PopulationProps)) :
    ∀ (G G' : Graph), KeysNodup G → addPopulations G pops = .ok G' → KeysNodup G' := by
  induction pops with
  | nil =>
    intro G G' h hok
    unfold addPopulations at hok
    simp only [Except.ok.injEq] at hok
    exact hok ▸ h
  | cons e rest ih =>
    intro G G' h hok
    obtain ⟨id, pop⟩ := e
    unfold addPopulations at hok
    cases hc : convertColor pop.color with
    | error err =>
      rw [hc] at hok
      simp [Bind.bind, Except.bind] at hok
    | ok c =>
      rw [hc] at hok
      simp only [Bind.bind, Except.bind] at hok
      exact ih _ _ (keysNodup_addNode _ _ _ h) hok

theorem keysNodup_addInputs (inputs : List (String × InputInfo)) :
    ∀ (G G' : Graph) (sts sts' : List (String × SynTypes)) (network : Network),
    KeysNodup G → addInputs G sts inputs network = .ok (G', sts') → KeysNodup G' := by
  induction inputs with
  | nil =>
    intro G G' sts sts' network h hok
    unfold addInputs at hok
    simp only [Except.ok.injEq, Prod.mk.injEq] at hok
    exact hok.1 ▸ h
  | cons e rest ih =>
    intro G G' sts sts' network h hok
    obtain ⟨input_id, info⟩ := e
    unfold addInputs at hok
    rw [show convertColor [1, 1, 0] = .ok (.rgba 1 1 0 1) from rfl] at hok
    simp only [Bind.bind, Except.bind] at hok
    cases hsrc : network.input_sources with
    | none =>
      rw [hsrc] at hok
      simp at hok
    | some u =>
      rw [hsrc] at hok
      dsimp only at hok
      exact ih _ _ _ _ _
        (keysNodup_addEdge _ _ _ _ (keysNodup_addNode _ _ _ h)) hok

theorem keysNodup_updateNodeShapes (l : List (String × SynTypes)) :
    ∀ (G G' : Graph), KeysNodup G → updateNodeShapes G l = .ok G' → KeysNodup G' := by
  induction l with
  | nil =>
    intro G G' h hok
    unfold updateNodeShapes at hok
    simp only [Except.ok.injEq] at hok
    exact hok ▸ h
  | cons e rest ih =>
    intro G G' h hok
    obtain ⟨node, st⟩ := e
    unfold updateNodeShapes at hok
    cases hn : getKey? G.nodes node with
    | none =>
      rw [hn] at hok
      simp at hok
    | some attrs =>
      rw [hn] at hok
      dsimp only at hok
      exact ih _ _ (keysNodup_addNode _ _ _ h) hok

theorem keysNodup_addProjection (G G' : Graph) (proj : Projection)
    (sts sts' : List (String × SynTypes)) (network : Network)
    (h : KeysNodup G) (hok : addProjection G proj sts network = .ok (G', sts')) :
    KeysNodup G' := by
  obtain ⟨attrs, st, cat, st₁, _, _, _, _, _, hG⟩ :=
    addProjection_ok_elim G proj sts network G' sts' hok
  subst hG
  by_cases hdir : proj.directionality = some "bidirectional" <;>
    simp only [hdir, if_true, if_false] <;>
    [exact keysNodup_addEdge _ _ _ _ (keysNodup_addEdge _ _ _ _ h);
     exact keysNodup_addEdge _ _ _ _ h]

theorem keysNodup_addProjections (projs : List Projection) :
    ∀ (G G' : Graph) (sts sts' : List (String × SynTypes)) (network : Network),
    KeysNodup G → addProjections G sts projs network = .ok (G', sts') → KeysNodup G' := by
  induction projs with
  | nil =>
    intro G G' sts sts' network h hok
    unfold addProjections at hok
    simp only [Except.ok.injEq, Prod.mk.injEq] at hok
    exact hok.1 ▸ h
  | cons p rest ih =>
    intro G G' sts sts' network h hok
    unfold addProjections at hok
    cases hp : addProjection G p sts network with
    | error err =>
      rw [hp] at hok
      simp [Bind.bind, Except.bind] at hok
    | ok r =>
      rw [hp] at hok
      simp only [Bind.bind, Except.bind] at hok
      exact ih _ _ _ _ _ (keysNodup_addProjection G r.1 p sts r.2 network h hp) hok

theorem keysNodup_inputsPhase (G G' : Graph) (sts sts' : List (String × SynTypes))
    (network : Network) (h : KeysNodup G)
    (hok : inputsPhase G sts network = .ok (G', sts')) : KeysNodup G' := by
  unfold inputsPhase at hok
  cases hin : network.inputs with
  | none =>
    rw [hin] at hok
    simp only [Except.ok.injEq, Prod.mk.injEq] at hok
    exact hok.1 ▸ h
  | some l =>
    rw [hin] at hok
    dsimp only at hok
    by_cases hl : l = []
    · rw [if_pos hl] at hok
      simp only [Except.ok.injEq, Prod.mk.injEq] at hok
      exact hok.1 ▸ h
    · rw [if_neg hl] at hok
      cases hins : addInputs G sts l network with
      | error err =>
        rw [hins] at hok
        simp [Bind.bind, Except.bind] at hok
      | ok r =>
        rw [hins] at hok
        simp only [Bind.bind, Except.bind] at hok
        have h₂ : KeysNodup r.1 := keysNodup_addInputs _ _ _ _ _ _ h hins
        cases hupd : updateNodeShapes r.1 r.2 with
        | error err =>
          rw [hupd] at hok
          simp [Bind.bind, Except.bind] at hok
        | ok G₃ =>
          rw [hupd] at hok
          simp only [Bind.bind, Except.bind, Except.ok.injEq, Prod.mk.injEq] at hok
          exact hok.1 ▸ keysNodup_updateNodeShapes _ _ _ h₂ hupd

theorem keysNodup_buildSteps (network : Network) (G : Graph)
    (sts : List (String × SynTypes)) (hok : buildSteps network = .ok (G, sts)) :
    KeysNodup G := by
  unfold buildSteps at hok
  dsimp only at hok
  cases hpop : addPopulations { nodes := [], edges := [] } network.populations with
  | error err =>
    rw [hpop] at hok
    simp [Bind.bind, Except.bind] at hok
  | ok G₁ =>
    rw [hpop] at hok
    simp only [Bind.bind, Except.bind] at hok
    have h₁ : KeysNodup G₁ :=
      keysNodup_addPopulations _ _ _ ⟨by simp, by simp⟩ hpop
    cases hph : inputsPhase G₁ (G₁.nodes.map fun p => (p.1, .set [])) network with
    | error err =>
      rw [hph] at hok
      simp at hok
    | ok r =>
      rw [hph] at hok
      dsimp only at hok
      exact keysNodup_addProjections _ _ _ _ _ _
        (keysNodup_inputsPhase _ _ _ _ _ h₁ hph) hok

/-! Further primitive lemmas. -/

theorem getKey?_append_right {α β : Type} [DecidableEq α] (l₁ l₂ : List (α × β)) (k : α)
    (h : getKey? l₁ k = none) : getKey? (l₁ ++ l₂) k = getKey? l₂ k := by
  induction l₁ with
  | nil => simp
  | cons e t ih =>
    obtain ⟨k₀, v₀⟩ := e
    by_cases h₀ : k₀ = k <;> simp_all [getKey?]

theorem getKey?_setKey_eq_none_iff {α β : Type} [DecidableEq α] (l : List (α × β))
    (k k' : α) (v : β) :
    getKey? (setKey l k v) k' = none ↔ (k' ≠ k ∧ getKey? l k' = none) := by
  rw [← Option.not_isSome_iff_eq_none, getKey?_isSome_setKey]
  simp [Option.not_isSome_iff_eq_none]

theorem ensureNode_edges (G : Graph) (id : String) : (ensureNode G id).edges = G.edges := by
  unfold ensureNode
  split <;> rfl

theorem addEdge_edges (G : Graph) (u v : String) (a : EdgeAttrs) :
    (addEdge G u v a).edges = setKey G.edges (u, v) a := by
  show setKey (ensureNode (ensureNode G u) v).edges (u, v) a = setKey G.edges (u, v) a
  rw [ensureNode_edges, ensureNode_edges]

/-! Build-invariant preservation through every phase. -/

theorem buildInv_mono (ids₁ ids₂ : List String) (G : Graph)
    (sts : List (String × SynTypes)) (h : BuildInv ids₂ G sts)
    (hsub : ∀ k ∈ ids₁, k ∈ ids₂) : BuildInv ids₁ G sts :=
  ⟨h.nodesFull, h.edgesTagged, h.stsKeys, fun k hk => h.declared k (hsub k hk)⟩

theorem nodesFull_addNode (G : Graph) (id : String) (a : NodeAttrs)
    (h : NodesFull G) (ha : a.color.isSome ∧ a.shape.isSome ∧ a.size.isSome) :
    NodesFull (addNode G id a) := by
  intro e he
  rcases mem_setKey G.nodes id a e he with h₁ | h₁
  · rw [h₁]
    exact ha
  · exact h e h₁

theorem classifyShapeColor_full (st : SynTypes) (attrs : NodeAttrs)
    (h : attrs.color.isSome ∧ attrs.shape.isSome ∧ attrs.size.isSome) :
    (classifyShapeColor st attrs).color.isSome ∧
    (classifyShapeColor st attrs).shape.isSome ∧
    (classifyShapeColor st attrs).size.isSome := by
  unfold classifyShapeColor
  repeat' split
  all_goals simp_all

theorem buildInv_addNode (ids : List String) (G : Graph)
    (sts : List (String × SynTypes)) (id : String) (a : NodeAttrs)
    (inv : BuildInv ids G sts)
    (ha : a.color.isSome ∧ a.shape.isSome ∧ a.size.isSome) :
    BuildInv (ids ++ [id]) (addNode G id a) sts := by
  refine ⟨nodesFull_addNode _ _ _ inv.nodesFull ha, inv.edgesTagged, ?_, ?_⟩
  · intro k hk
    exact addNode_nodes_isSome _ _ _ _ (inv.stsKeys k hk)
  · intro k hk
    rcases List.mem_append.mp hk with h₁ | h₁
    · exact addNode_nodes_isSome _ _ _ _ (inv.declared k h₁)
    · simp only [List.mem_singleton] at h₁
      subst h₁
      show (getKey? (setKey G.nodes k a) k).isSome
      rw [getKey?_setKey_self]
      rfl

theorem buildInv_addEdge (ids : List String) (G : Graph)
    (sts : List (String × SynTypes)) (u v : String) (a : EdgeAttrs)
    (inv : BuildInv ids G sts)
    (hu : (getKey? G.nodes u).isSome) (hv : (getKey? G.nodes v).isSome)
    (ha : (a.info.isSome ∧ a.synapse_category.isSome) ∨
          (a.synapse = "input" ∧ a.info = none ∧ a.synapse_category = none)) :
    BuildInv ids (addEdge G u v a) sts := by
  rw [addEdge_of_present _ _ _ _ hu hv]
  refine ⟨inv.nodesFull, ?_, inv.stsKeys, inv.declared⟩
  intro e he
  rcases mem_setKey G.edges (u, v) a e he with h₁ | h₁
  · rw [h₁]
    exact ha
  · exact inv.edgesTagged e h₁

theorem buildInv_addPopulations (pops : List (String × PopulationProps)) :
    ∀ (ids : List String) (G G' : Graph) (sts : List (String × SynTypes)),
    BuildInv ids G sts → addPopulations G pops = .ok G' →
    BuildInv (ids ++ pops.map Prod.fst) G' sts := by
  induction pops with
  | nil =>
    intro ids G G' sts inv hok
    unfold addPopulations at hok
    simp only [Except.ok.injEq] at hok
    subst hok
    simpa using inv
  | cons e rest ih =>
    intro ids G G' sts inv hok
    obtain ⟨nid, pop⟩ := e
    unfold addPopulations at hok
    cases hc : convertColor pop.color with
    | error err =>
      rw [hc] at hok
      simp [Bind.bind, Except.bind] at hok
    | ok c =>
      rw [hc] at hok
      simp only [Bind.bind, Except.bind] at hok
      have inv₁ := buildInv_addNode ids G sts nid
        { color := some c, shape := some (nodeShape "generic"), size := some pop.size }
        inv (by simp)
      have h₂ := ih (ids ++ [nid]) _ G' sts inv₁ hok
      have heq : (ids ++ [nid]) ++ rest.map Prod.fst
          = ids ++ ((nid, pop) :: rest).map Prod.fst := by
        simp
      exact heq ▸ h₂

theorem buildInv_addInputs (inputs : List (String × InputInfo)) :
    ∀ (ids : List String) (G G' : Graph) (sts sts' : List (String × SynTypes))
      (network : Network),
    BuildInv ids G sts →
    (∀ e ∈ inputs, e.2.population ∈ ids) →
    addInputs G sts inputs network = .ok (G', sts') →
    BuildInv (ids ++ inputs.map Prod.fst) G' sts' := by
  induction inputs with
  | nil =>
    intro ids G G' sts sts' network inv htgt hok
    unfold addInputs at hok
    simp only [Except.ok.injEq, Prod.mk.injEq] at hok
    obtain ⟨rfl, rfl⟩ := hok
    simpa using inv
  | cons e rest ih =>
    intro ids G G' sts sts' network inv htgt hok
    obtain ⟨input_id, info⟩ := e
    unfold addInputs at hok
    rw [show convertColor [1, 1, 0] = .ok (.rgba 1 1 0 1) from rfl] at hok
    simp only [Bind.bind, Except.bind] at hok
    cases hsrc : network.input_sources with
    | none =>
      rw [hsrc] at hok
      simp at hok
    | some u =>
      rw [hsrc] at hok
      dsimp only at hok
      have inv₁ := buildInv_addNode ids G sts input_id
        { color := some (.rgba 1 1 0 1), shape := some (nodeShape "input"), size := some 2 }
        inv (by simp)
      have hidp : (getKey? (addNode G input_id
          { color := some (.rgba 1 1 0 1), shape := some (nodeShape "input"),
            size := some 2 }).nodes input_id).isSome :=
        inv₁.declared input_id (by simp)
      have htgtp : (getKey? (addNode G input_id
          { color := some (.rgba 1 1 0 1), shape := some (nodeShape "input"),
            size := some 2 }).nodes info.population).isSome := by
        refine addNode_nodes_isSome _ _ _ _ ?_
        exact inv.declared _ (htgt (input_id, info) (List.mem_cons_self _ _))
      have inv₂ : BuildInv (ids ++ [input_id])
          (addNode G input_id
            { color := some (.rgba 1 1 0 1), shape := some (nodeShape "input"),
              size := some 2 })
          (setKey sts input_id (.str "dummy")) := by
        refine ⟨inv₁.nodesFull, inv₁.edgesTagged, ?_, inv₁.declared⟩
        intro k hk
        rcases (getKey?_isSome_setKey _ _ _ _).mp hk with rfl | hk₂
        · exact hidp
        · exact inv₁.stsKeys k hk₂
      have inv₃ : BuildInv (ids ++ [input_id])
          (addInputEdge (addNode G input_id
            { color := some (.rgba 1 1 0 1), shape := some (nodeShape "input"),
              size := some 2 }) input_id info u)
          (setKey sts input_id (.str "dummy")) := by
        refine buildInv_addEdge _ _ _ _ _ _ inv₂ hidp htgtp ?_
        exact Or.inr ⟨rfl, rfl, rfl⟩
      have h₂ := ih (ids ++ [input_id]) _ G' _ sts' network inv₃
        (fun e he => List.mem_append_left _ (htgt e (List.mem_cons_of_mem _ he))) hok
      have heq : (ids ++ [input_id]) ++ rest.map Prod.fst
          = ids ++ ((input_id, info) :: rest).map Prod.fst := by
        simp
      exact heq ▸ h₂

theorem buildInv_updateNodeShapes (l : List (String × SynTypes)) :
    ∀ (ids : List String) (G G' : Graph) (sts : List (String × SynTypes)),
    BuildInv ids G sts → updateNodeShapes G l = .ok G' → BuildInv ids G' sts := by
  induction l with
  | nil =>
    intro ids G G' sts inv hok
    unfold updateNodeShapes at hok
    simp only [Except.ok.injEq] at hok
    exact hok ▸ inv
  | cons e rest ih =>
    intro ids G G' sts inv hok
    obtain ⟨node, st⟩ := e
    unfold updateNodeShapes at hok
    cases hn : getKey? G.nodes node with
    | none =>
      rw [hn] at hok
      simp at hok
    | some attrs =>
      rw [hn] at hok
      dsimp only at hok
      have hfull := inv.nodesFull (node, attrs) (getKey?_some_mem _ _ _ hn)
      have inv₁ := buildInv_addNode ids G sts node (classifyShapeColor st attrs) inv
        (classifyShapeColor_full st attrs hfull)
      exact ih ids _ G' sts
        (buildInv_mono ids (ids ++ [node]) _ _ inv₁
          (fun k hk => List.mem_append_left _ hk)) hok

theorem buildInv_addProjection (ids : List String) (G G' : Graph) (proj : Projection)
    (sts sts' : List (String × SynTypes)) (network : Network)
    (inv : BuildInv ids G sts)
    (hpost : proj.postsynaptic ∈ ids)
    (hok : addProjection G proj sts network = .ok (G', sts')) :
    BuildInv ids G' sts' := by
  obtain ⟨attrs, st, cat, st₁, hattrs, hst, hcat, hadd, hsts, hG⟩ :=
    addProjection_ok_elim G proj sts network G' sts' hok
  have htag := getEdgeAttributes_ok_tagged _ _ _ _ _ hattrs
  have hpre : (getKey? G.nodes proj.presynaptic).isSome :=
    inv.stsKeys _ (by simp [hst])
  have hpostn : (getKey? G.nodes proj.postsynaptic).isSome := inv.declared _ hpost
  have inv₁ : BuildInv ids G sts' := by
    subst hsts
    refine ⟨inv.nodesFull, inv.edgesTagged, ?_, inv.declared⟩
    intro k hk
    rcases (getKey?_isSome_setKey _ _ _ _).mp hk with rfl | hk₂
    · exact hpre
    · exact inv.stsKeys k hk₂
  subst hG
  by_cases hdir : proj.directionality = some "bidirectional"
  · simp only [hdir, if_true]
    have inv₂ := buildInv_addEdge ids _ _ _ _ attrs inv₁ hpre hpostn (Or.inl htag)
    refine buildInv_addEdge ids _ _ _ _ attrs inv₂ ?_ ?_ (Or.inl htag)
    · exact addEdge_nodes_isSome _ _ _ _ _ hpostn
    · exact addEdge_nodes_isSome _ _ _ _ _ hpre
  · simp only [hdir, if_false]
    exact buildInv_addEdge ids _ _ _ _ attrs inv₁ hpre hpostn (Or.inl htag)

theorem buildInv_addProjections (projs : List Projection) :
    ∀ (ids : List String) (G G' : Graph) (sts sts' : List (String × SynTypes))
      (network : Network),
    BuildInv ids G sts →
    (∀ p ∈ projs, p.postsynaptic ∈ ids) →
    addProjections G sts projs network = .ok (G', sts') →
    BuildInv ids G' sts' := by
  induction projs with
  | nil =>
    intro ids G G' sts sts' network inv hpost hok
    unfold addProjections at hok
    simp only [Except.ok.injEq, Prod.mk.injEq] at hok
    obtain ⟨rfl, rfl⟩ := hok
    exact inv
  | cons p rest ih =>
    intro ids G G' sts sts' network inv hpost hok
    unfold addProjections at hok
    cases hp : addProjection G p sts network with
    | error err =>
      rw [hp] at hok
      simp [Bind.bind, Except.bind] at hok
    | ok r =>
      rw [hp] at hok
      simp only [Bind.bind, Except.bind] at hok
      exact ih ids r.1 G' r.2 sts' network
        (buildInv_addProjection ids G r.1 p sts r.2 network inv
          (hpost p (List.mem_cons_self _ _)) hp)
        (fun q hq => hpost q (List.mem_cons_of_mem _ hq)) hok

theorem buildInv_inputsPhase (ids : List String) (G G' : Graph)
    (sts sts' : List (String × SynTypes)) (network : Network)
    (inv : BuildInv ids G sts)
    (htgt : ∀ e ∈ inputEntries network, e.2.population ∈ ids)
    (hok : inputsPhase G sts network = .ok (G', sts')) :
    BuildInv (ids ++ (inputEntries network).map Prod.fst) G' sts' := by
  unfold inputsPhase at hok
  cases hin : network.inputs with
  | none =>
    rw [hin] at hok
    simp only [Except.ok.injEq, Prod.mk.injEq] at hok
    obtain ⟨rfl, rfl⟩ := hok
    simpa [inputEntries, hin] using inv
  | some l =>
    rw [hin] at hok
    dsimp only at hok
    have hIE : inputEntries network = l := by simp [inputEntries, hin]
    by_cases hl : l = []
    · rw [if_pos hl] at hok
      simp only [Except.ok.injEq, Prod.mk.injEq] at hok
      obtain ⟨rfl, rfl⟩ := hok
      subst hl
      simpa [hIE] using inv
    · rw [if_neg hl] at hok
      cases hins : addInputs G sts l network with
      | error err =>
        rw [hins] at hok
        simp [Bind.bind, Except.bind] at hok
      | ok r =>
        rw [hins] at hok
        simp only [Bind.bind, Except.bind] at hok
        have inv₂ := buildInv_addInputs l ids G r.1 sts r.2 network inv
          (by rw [hIE] at htgt; exact htgt) hins
        cases hupd : updateNodeShapes r.1 r.2 with
        | error err =>
          rw [hupd] at hok
          simp [Bind.bind, Except.bind] at hok
        | ok G₃ =>
          rw [hupd] at hok
          simp only [Bind.bind, Except.bind, Except.ok.injEq, Prod.mk.injEq] at hok
          obtain ⟨rfl, rfl⟩ := hok
          rw [hIE]
          exact buildInv_updateNodeShapes r.2 _ r.1 _ _ inv₂ hupd

theorem buildInv_buildSteps (network : Network) (G : Graph)
    (sts : List (String × SynTypes))
    (href : ModelRefsOk network)
    (hok : buildSteps network = .ok (G, sts)) :
    BuildInv (network.populations.map Prod.fst ++ (inputEntries network).map Prod.fst)
      G sts := by
  unfold buildSteps at hok
  dsimp only at hok
  cases hpop : addPopulations { nodes := [], edges := [] } network.populations with
  | error err =>
    rw [hpop] at hok
    simp [Bind.bind, Except.bind] at hok
  | ok G₁ =>
    rw [hpop] at hok
    simp only [Bind.bind, Except.bind] at hok
    have inv₀ : BuildInv [] { nodes := [], edges := [] } [] := by
      refine ⟨?_, ?_, ?_, ?_⟩
      · intro e he
        simp at he
      · intro e he
        simp at he
      · intro k hk
        simp [getKey?] at hk
      · intro k hk
        simp at hk
    have inv₁ := buildInv_addPopulations network.populations [] _ G₁ [] inv₀ hpop
    have inv₂ : BuildInv (network.populations.map Prod.fst) G₁
        (G₁.nodes.map fun p => (p.1, SynTypes.set [])) := by
      refine ⟨inv₁.nodesFull, inv₁.edgesTagged, ?_, ?_⟩
      · intro k hk
        rwa [getKey?_map_const_isSome] at hk
      · intro k hk
        exact inv₁.declared k (by simpa using hk)
    cases hph : inputsPhase G₁ (G₁.nodes.map fun p => (p.1, SynTypes.set [])) network with
    | error err =>
      rw [hph] at hok
      simp at hok
    | ok r =>
      rw [hph] at hok
      dsimp only at hok
      have inv₃ := buildInv_inputsPhase (network.populations.map Prod.fst) G₁ r.1
        (G₁.nodes.map fun p => (p.1, SynTypes.set [])) r.2 network inv₂ href.2 hph
      exact buildInv_addProjections network.projections _ r.1 G r.2 sts network inv₃
        (fun p hp => by
          rcases href.1 p hp with h | h
          · exact List.mem_append_left _ h
          · exact List.mem_append_right _ h) hok


/-- The category of a successful resolve of a kind other than `ampaSyn` /
`gabaSyn` is "generic". -/
theorem getEdgeAttributes_generic_cat (t : String) (proj : Projection) (style : String)
    (network : Network) (a : EdgeAttrs)
    (h1 : t ≠ "ampaSyn") (h2 : t ≠ "gabaSyn")
    (h : getEdgeAttributes t proj style network = .ok a) :
    a.synapse_category = some "generic" := by
  unfold getEdgeAttributes at h
  cases hs : proj.synapse with
  | none =>
    rw [hs] at h
    simp at h
  | some syn =>
    rw [hs] at h
    simp only [h1, h2, if_false] at h
    cases hp : getKey? network.populations proj.presynaptic with
    | none =>
      rw [hp] at h
      simp at h
    | some pop =>
      rw [hp] at h
      dsimp only at h
      cases hc : convertColor pop.color with
      | error e =>
        rw [hc] at h
        simp [Bind.bind, Except.bind] at h
      | ok c =>
        rw [hc] at h
        simp [Bind.bind, Except.bind] at h
        simp [← h]

/-- Appending "generic" does not change containment of the three category
strings the classifier tests. -/
theorem contains_append_generic (s : List String) (c : String) (hc : c ≠ "generic") :
    (s ++ ["generic"]).contains c = s.contains c := by
  simp [hc]

/-- `_add_projection` fails with a `KeyError` naming the presynaptic id
when that id is neither a key of `node_synapse_types` nor (for the generic
dispatch) of the populations map. -/
theorem addProjection_missing_pre (G : Graph) (proj : Projection)
    (sts : List (String × SynTypes)) (network : Network) (k : String)
    (hsyn : proj.synapse = some k)
    (hsts : getKey? sts proj.presynaptic = none)
    (hpops : getKey? network.populations proj.presynaptic = none) :
    addProjection G proj sts network = .error (.keyError proj.presynaptic) := by
  unfold addProjection
  dsimp only
  rw [hsyn]
  unfold getEdgeAttributes
  rw [hsyn]
  dsimp only [Option.getD]
  by_cases hk1 : k = "ampaSyn"
  · rw [if_pos hk1]
    simp only [Bind.bind, Except.bind]
    rw [hsts]
  · rw [if_neg hk1]
    by_cases hk2 : k = "gabaSyn"
    · rw [if_pos hk2]
      simp only [Bind.bind, Except.bind]
      rw [hsts]
    · rw [if_neg hk2]
      rw [hpops]
      simp only [Bind.bind, Except.bind]

/-- The population loop succeeds whenever every declared color converts,
and the resulting node keys are exactly the old ones plus the population
ids. -/
theorem addPopulations_ok_of_colors (pops : List (String × PopulationProps)) :
    ∀ (G : Graph), PopsColorsOk pops →
    ∃ G', addPopulations G pops = .ok G' ∧
      ∀ x, getKey? G'.nodes x = none ↔
        (getKey? G.nodes x = none ∧ x ∉ pops.map Prod.fst) := by
  induction pops with
  | nil =>
    intro G h
    refine ⟨G, rfl, ?_⟩
    intro x
    simp
  | cons e rest ih =>
    intro G h
    obtain ⟨nid, pop⟩ := e
    obtain ⟨c, hc⟩ := h (nid, pop) (List.mem_cons_self _ _)
    have hrest : PopsColorsOk rest := fun e he => h e (List.mem_cons_of_mem _ he)
    obtain ⟨G', hG', hiff⟩ := ih (addNode G nid
      { color := some c, shape := some (nodeShape "generic"), size := some pop.size }) hrest
    refine ⟨G', ?_, ?_⟩
    · unfold addPopulations
      rw [hc]
      simp only [Bind.bind, Except.bind]
      exact hG'
    · intro x
      rw [hiff x]
      have hsk : getKey? (addNode G nid
          { color := some c, shape := some (nodeShape "generic"),
            size := some pop.size }).nodes x = none ↔
          (x ≠ nid ∧ getKey? G.nodes x = none) :=
        getKey?_setKey_eq_none_iff G.nodes nid x _
      rw [hsk]
      simp only [List.map_cons, List.mem_cons]
      constructor
      · rintro ⟨⟨hxn, hx⟩, hrest₂⟩
        exact ⟨hx, by rintro (h | h) <;> [exact hxn h; exact hrest₂ h]⟩
      · rintro ⟨hx, hor⟩
        exact ⟨⟨fun h => hor (Or.inl h), hx⟩, fun h => hor (Or.inr h)⟩

/-! Claim theorems. -/

/-- C1: the claim says the build finalizes each population node's
shape/color by running the node classifier after all projections, so a
population whose only outgoing projection is `ampaSyn` ends with the
excitatory shape.  The code calls `_update_node_shapes` only before the
projection loop (and only when inputs exist), so in the two-population
model with a single `ampaSyn` projection P→Q the node P ends the build
with the default generic shape "s" — even though the classifier applied to
its accumulated category set would give the excitatory shape "^" and the
blue color override. -/
theorem c1_population_shape_never_reclassified :
    ((createGraph [("net", c1Model)]).map
        (fun G => (getKey? G.nodes "P").map NodeAttrs.shape)
      = .ok (some (some (nodeShape "generic"))))
  ∧ (classifyShapeColor (.set ["excitatory"])
        { color := some (.rgba 0 0 1 1), shape := some (nodeShape "generic"), size := some 10 }
      = { color := some (.named "blue"), shape := some (nodeShape "excitatory"),
          size := some 10 }) := by
  decide

/-- C2 counterexample: a bidirectional projection whose presynaptic and
postsynaptic ids coincide produces one single edge, not the two edges the
claim asserts for every bidirectional projection. -/
theorem c2_selfloop_counterexample :
    (buildSteps c2Model).map (fun r => (r.1.edges.map Prod.fst, r.1.edges.length))
      = .ok ([("P", "P")], 1) := by
  decide

/-- C3 counterexample: a projection referencing an undeclared postsynaptic
id "R" does not fail the build; the unknown id is silently added as a node
with an empty attribute dictionary, and the edge P→R is created. -/
theorem c3_missing_postsynaptic_counterexample :
    (createGraph [("net", c3Model)]).map
        (fun G => (getKey? G.nodes "R", G.edges.map Prod.fst))
      = .ok (some ⟨none, none, none⟩, [("P", "R")]) := by
  decide

/-- C4: the node classifier follows the fixed precedence with first match
winning: excitatory and inhibitory together give the generic shape with no
color override; excitatory without inhibitory gives the excitatory shape
and the fixed blue color; inhibitory without excitatory gives the
inhibitory shape and the fixed red color; dummy alone gives the input
shape with no color override; the empty set gives the generic shape with
no color override. -/
theorem c4_node_classifier_precedence (s : List String) (attrs : NodeAttrs) :
    (("excitatory" ∈ s ∧ "inhibitory" ∈ s) →
        classifyShapeColor (.set s) attrs =
          { attrs with shape := some (nodeShape "generic") })
  ∧ (("excitatory" ∈ s ∧ "inhibitory" ∉ s) →
        classifyShapeColor (.set s) attrs =
          { attrs with shape := some (nodeShape "excitatory"),
                       color := some (.named "blue") })
  ∧ (("inhibitory" ∈ s ∧ "excitatory" ∉ s) →
        classifyShapeColor (.set s) attrs =
          { attrs with shape := some (nodeShape "inhibitory"),
                       color := some (.named "red") })
  ∧ (("dummy" ∈ s ∧ "excitatory" ∉ s ∧ "inhibitory" ∉ s) →
        classifyShapeColor (.set s) attrs =
          { attrs with shape := some (nodeShape "input") })
  ∧ (s = [] →
        classifyShapeColor (.set s) attrs =
          { attrs with shape := some (nodeShape "generic") }) := by
  refine ⟨?_, ?_, ?_, ?_, ?_⟩
  · rintro ⟨he, hi⟩
    simp [classifyShapeColor, synMem, he, hi]
  · rintro ⟨he, hi⟩
    simp [classifyShapeColor, synMem, he, hi]
  · rintro ⟨hi, he⟩
    simp [classifyShapeColor, synMem, he, hi]
  · rintro ⟨hd, he, hi⟩
    simp [classifyShapeColor, synMem, he, hi, hd]
  · rintro rfl
    simp [classifyShapeColor, synMem]

/-- C4 witness: the pure-excitatory case at a concrete set and node. -/
theorem c4_node_classifier_precedence_witness :
    classifyShapeColor (.set ["excitatory"])
        { color := some (.rgba 0 0 1 1), shape := some "s", size := some 10 }
      = { color := some (.named "blue"), shape := some (nodeShape "excitatory"),
          size := some 10 } :=
  (c4_node_classifier_precedence ["excitatory"]
      { color := some (.rgba 0 0 1 1), shape := some "s", size := some 10 }).2.1
    ⟨by decide, by decide⟩

/-- C5 counterexample: the claim covers the default kind "generic"
(synapse field absent); there the resolver raises `KeyError` on
`proj['synapse']` instead of returning the open-arrow generic
attributes. -/
theorem c5_default_kind_counterexample :
    getEdgeAttributes (noSynapseProj.synapse.getD "generic") noSynapseProj
        (projStyle noSynapseProj) c8Model
      = .error (.keyError "synapse") := by
  decide

/-- C6: the claim says the resolve never fails and the synapse kind
defaults to "generic" when absent.  The code raises `KeyError('synapse')`
on a projection with no synapse field (first conjunct: the failing input),
while a projection whose only present optional field is `synapse` resolves
fine with every other optional field absent (second conjunct). -/
theorem c6_resolve_fails_without_synapse :
    (getEdgeAttributes (noSynapseProj.synapse.getD "generic") noSynapseProj
        (projStyle noSynapseProj) c1Model
      = .error (.keyError "synapse"))
  ∧ (getEdgeAttributes (onlySynapseProj.synapse.getD "generic") onlySynapseProj
        (projStyle onlySynapseProj) c1Model
      = .ok { synapse := "ampaSyn", style := "solid", arrowstyle := some "-|>",
              color := .named "blue", info := some "",
              synapse_category := some "excitatory" }) := by
  decide

/-- C7 counterexample: the edge added for an input entry carries neither
an `info` nor a `synapse_category` attribute, contradicting the claim that
every edge carries all six attributes. -/
theorem c7_input_edge_counterexample :
    (createGraph [("net", c7Model)]).map
        (fun G => (getKey? G.edges ("I0", "Q")).map
          (fun e => (e.info, e.synapse_category)))
      = .ok (some (none, none)) := by
  decide

/-- C8 counterexample: after building a model whose single projection has
the explicit kind "generic", the presynaptic node's accumulated category
set is {"generic"} — the generic category does enter the set, and the set
did change from empty. -/
theorem c8_generic_in_set_counterexample :
    (buildSteps c8Model).map (fun r => getKey? r.2 "P")
      = .ok (some (.set ["generic"])) := by
  decide

/-- C9: the edge info label is "Weight: w, Delay: d" when both are
present, "Weight: w" with only a weight, "Delay: d" with only a delay, and
empty when neither is present; in particular weight 5 without delay gives
exactly "Weight: 5". -/
theorem c9_edge_info_label (proj : Projection) :
    (∀ w d, proj.weight = some w → proj.delay = some d →
        formatEdgeInfo proj = "Weight: " ++ w ++ ", Delay: " ++ d)
  ∧ (∀ w, proj.weight = some w → proj.delay = none →
        formatEdgeInfo proj = "Weight: " ++ w)
  ∧ (∀ d, proj.weight = none → proj.delay = some d →
        formatEdgeInfo proj = "Delay: " ++ d)
  ∧ (proj.weight = none → proj.delay = none → formatEdgeInfo proj = "")
  ∧ (proj.weight = some "5" → proj.delay = none →
        formatEdgeInfo proj = "Weight: 5") := by
  refine ⟨?_, ?_, ?_, ?_, ?_⟩ <;> intro hw
  case _ =>
    intro hd h₁ h₂
    simp [formatEdgeInfo, h₁, h₂]
  case _ =>
    intro h₁ h₂
    simp [formatEdgeInfo, h₁, h₂]
  case _ =>
    intro h₁ h₂
    simp [formatEdgeInfo, h₁, h₂]
  case _ =>
    intro h₂
    simp [formatEdgeInfo, hw, h₂]
  case _ =>
    intro h₂
    simp [formatEdgeInfo, hw, h₂]

/-- C9 witness: the Scenario E projection, weight 5 and no delay. -/
theorem c9_edge_info_label_witness :
    formatEdgeInfo { presynaptic := "P", postsynaptic := "Q", synapse := some "ampaSyn",
                     probability := none, directionality := none, weight := some "5",
                     delay := none }
      = "Weight: 5" :=
  (c9_edge_info_label _).2.2.2.2 rfl rfl

/-- C2 (amended): a bidirectional projection between two distinct ids,
processed on a graph with no prior edge between the pair, yields exactly
two edges — pre→post and post→pre — both carrying the attribute record
that was resolved once from the projection. -/
theorem c2_bidirectional_two_edges (G G' : Graph) (proj : Projection)
    (sts sts' : List (String × SynTypes)) (network : Network) (attrs : EdgeAttrs)
    (hdir : proj.directionality = some "bidirectional")
    (hne : proj.presynaptic ≠ proj.postsynaptic)
    (hpre : getKey? G.edges (proj.presynaptic, proj.postsynaptic) = none)
    (hpost : getKey? G.edges (proj.postsynaptic, proj.presynaptic) = none)
    (hattrs : getEdgeAttributes (proj.synapse.getD "generic") proj (projStyle proj) network
        = .ok attrs)
    (hok : addProjection G proj sts network = .ok (G', sts')) :
    getKey? G'.edges (proj.presynaptic, proj.postsynaptic) = some attrs ∧
    getKey? G'.edges (proj.postsynaptic, proj.presynaptic) = some attrs ∧
    G'.edges.countP (fun e => decide (e.1 = (proj.presynaptic, proj.postsynaptic)) ||
        decide (e.1 = (proj.postsynaptic, proj.presynaptic))) = 2 := by
  obtain ⟨attrs₀, st, cat, st₁, hattrs₀, hst, hcat, hadd, hsts, hG⟩ :=
    addProjection_ok_elim G proj sts network G' sts' hok
  rw [hattrs] at hattrs₀
  injection hattrs₀ with h₀
  subst h₀
  subst hG
  simp only [hdir, if_true]
  have hkey : ((proj.presynaptic, proj.postsynaptic) : String × String)
      ≠ (proj.postsynaptic, proj.presynaptic) := by
    intro h
    exact hne (congrArg Prod.fst h)
  rw [addEdge_edges, addEdge_edges]
  rw [setKey_of_getKey?_none _ _ _ hpre]
  have h₁ : getKey? (G.edges ++ [((proj.presynaptic, proj.postsynaptic), attrs)])
      (proj.postsynaptic, proj.presynaptic) = none := by
    rw [getKey?_append_right _ _ _ hpost]
    simp [getKey?, hkey]
  rw [setKey_of_getKey?_none _ _ _ h₁]
  have h₂ : getKey? (G.edges ++ [((proj.presynaptic, proj.postsynaptic), attrs)])
      (proj.presynaptic, proj.postsynaptic) = some attrs := by
    rw [getKey?_append_right _ _ _ hpre]
    simp [getKey?]
  refine ⟨?_, ?_, ?_⟩
  · rw [getKey?_append_left _ _ _ (by simp [h₂])]
    exact h₂
  · rw [getKey?_append_right _ _ _ h₁]
    simp [getKey?]
  · rw [List.countP_append, List.countP_append]
    have hz : G.edges.countP
        (fun e => decide (e.1 = (proj.presynaptic, proj.postsynaptic)) ||
          decide (e.1 = (proj.postsynaptic, proj.presynaptic))) = 0 := by
      rw [List.countP_eq_zero]
      intro e he
      have hp1 := (getKey?_eq_none_iff _ _).mp hpre
      have hp2 := (getKey?_eq_none_iff _ _).mp hpost
      simp only [Bool.or_eq_true, decide_eq_true_eq]
      rintro (h | h)
      · exact hp1 (h ▸ List.mem_map_of_mem Prod.fst he)
      · exact hp2 (h ▸ List.mem_map_of_mem Prod.fst he)
    rw [hz]
    simp [List.countP_cons, hkey]

/-- C3 (amended): when the first projection of a model without inputs
names a presynaptic id that is not a declared population (and its synapse
field is present), the build fails with a key-lookup error carrying
exactly that id.  (Missing postsynaptic ids and input targets do not fail
— see the counterexample.) -/
theorem c3_missing_presynaptic_fails (network : Network) (proj : Projection)
    (rest : List Projection) (k : String)
    (hproj : network.projections = proj :: rest)
    (hsyn : proj.synapse = some k)
    (hinputs : network.inputs = none)
    (hcolors : PopsColorsOk network.populations)
    (hmissing : proj.presynaptic ∉ network.populations.map Prod.fst) :
    buildSteps network = .error (.keyError proj.presynaptic) := by
  obtain ⟨G₁, hG₁, hiff⟩ := addPopulations_ok_of_colors network.populations
      { nodes := [], edges := [] } hcolors
  have hnone : getKey? G₁.nodes proj.presynaptic = none :=
    (hiff _).mpr ⟨by simp [getKey?], hmissing⟩
  have hstsnone : getKey? (G₁.nodes.map fun p => (p.1, SynTypes.set []))
      proj.presynaptic = none := by
    rw [← Option.not_isSome_iff_eq_none]
    rw [getKey?_map_const_isSome]
    rw [hnone]
    simp
  have hpopsnone : getKey? network.populations proj.presynaptic = none :=
    (getKey?_eq_none_iff _ _).mpr hmissing
  have hstep := addProjection_missing_pre G₁ proj
    (G₁.nodes.map fun p => (p.1, SynTypes.set [])) network k hsyn hstsnone hpopsnone
  unfold buildSteps
  dsimp only
  rw [hG₁]
  simp only [Bind.bind, Except.bind]
  rw [show inputsPhase G₁ (G₁.nodes.map fun p => (p.1, SynTypes.set [])) network
      = .ok (G₁, G₁.nodes.map fun p => (p.1, SynTypes.set [])) from by
    unfold inputsPhase
    rw [hinputs]]
  dsimp only
  rw [hproj]
  unfold addProjections
  rw [hstep]
  simp [Bind.bind, Except.bind]

/-- C5 (amended): with the synapse field present, the resolver dispatches
on the kind: `ampaSyn` gives the filled-triangle arrow, the fixed blue
color and category excitatory; `gabaSyn` gives no arrow, the fixed red
color and category inhibitory; any other present kind gives the simple
open arrow, the presynaptic population's converted declared color and
category generic.  (With the field absent the resolver errors instead —
see the counterexample.) -/
theorem c5_resolver_dispatch (proj : Projection) (style : String) (network : Network)
    (k : String) (hsyn : proj.synapse = some k) :
    (k = "ampaSyn" →
        getEdgeAttributes k proj style network
          = .ok { synapse := k, style := style, arrowstyle := some "-|>",
                  color := .named "blue", info := some (formatEdgeInfo proj),
                  synapse_category := some "excitatory" })
  ∧ (k = "gabaSyn" →
        getEdgeAttributes k proj style network
          = .ok { synapse := k, style := style, arrowstyle := none,
                  color := .named "red", info := some (formatEdgeInfo proj),
                  synapse_category := some "inhibitory" })
  ∧ (∀ (pop : PopulationProps) (c : Color), k ≠ "ampaSyn" → k ≠ "gabaSyn" →
        getKey? network.populations proj.presynaptic = some pop →
        convertColor pop.color = .ok c →
        getEdgeAttributes k proj style network
          = .ok { synapse := k, style := style, arrowstyle := some "->",
                  color := c, info := some (formatEdgeInfo proj),
                  synapse_category := some "generic" }) := by
  refine ⟨?_, ?_, ?_⟩
  · rintro rfl
    unfold getEdgeAttributes
    rw [hsyn]
    simp
  · rintro rfl
    unfold getEdgeAttributes
    rw [hsyn]
    simp
  · intro pop c hk1 hk2 hpop hc
    unfold getEdgeAttributes
    rw [hsyn]
    simp only [hk1, hk2, if_false]
    rw [hpop]
    dsimp only
    rw [hc]
    simp [Bind.bind, Except.bind]

/-- C7 (amended): in the graph built from a referentially valid model,
every node carries color, shape and size, and every edge either carries
`info` and `synapse_category` (all projection edges do) or is an input
edge (synapse "input"), which carries neither; `synapse`, `style`,
`arrowstyle` and `color` are present on every edge by construction. -/
theorem c7_node_edge_attribute_invariant (name : String) (network : Network) (G : Graph)
    (href : ModelRefsOk network)
    (hok : createGraph [(name, network)] = .ok G) :
    (∀ e ∈ G.nodes, e.2.color.isSome ∧ e.2.shape.isSome ∧ e.2.size.isSome) ∧
    (∀ e ∈ G.edges,
      (e.2.info.isSome ∧ e.2.synapse_category.isSome) ∨
      (e.2.synapse = "input" ∧ e.2.info = none ∧ e.2.synapse_category = none)) := by
  unfold createGraph at hok
  dsimp only at hok
  cases hb : buildSteps network with
  | error err =>
    rw [hb] at hok
    simp [Except.map] at hok
  | ok r =>
    rw [hb] at hok
    simp only [Except.map, Except.ok.injEq] at hok
    subst hok
    have inv := buildInv_buildSteps network r.1 r.2 href (by rw [hb])
    exact ⟨inv.nodesFull, inv.edgesTagged⟩

/-- C8 (amended): a generic-kind projection does record the category
"generic" in the presynaptic node's accumulated set (contrary to the
original claim), but the addition is inert: the classifier's result on any
set is unchanged by an appended "generic". -/
theorem c8_generic_category_recorded_but_inert :
    (∀ (G G' : Graph) (proj : Projection) (sts sts' : List (String × SynTypes))
        (network : Network) (s : List String),
        proj.synapse = some "generic" →
        getKey? sts proj.presynaptic = some (.set s) →
        addProjection G proj sts network = .ok (G', sts') →
        sts' = setKey sts proj.presynaptic
          (.set (if s.contains "generic" then s else s ++ ["generic"])))
  ∧ (∀ (s : List String) (attrs : NodeAttrs),
        classifyShapeColor (.set (s ++ ["generic"])) attrs
          = classifyShapeColor (.set s) attrs) := by
  constructor
  · intro G G' proj sts sts' network s hsyn hst hok
    obtain ⟨attrs, st, cat, st₁, hattrs, hst₀, hcat, hadd, hsts, hG⟩ :=
      addProjection_ok_elim G proj sts network G' sts' hok
    rw [hst] at hst₀
    injection hst₀ with h₀
    have hcat' : attrs.synapse_category = some "generic" := by
      refine getEdgeAttributes_generic_cat (proj.synapse.getD "generic") proj
        (projStyle proj) network attrs ?_ ?_ hattrs
      · rw [hsyn]
        decide
      · rw [hsyn]
        decide
    rw [hcat'] at hcat
    injection hcat with hcg
    subst hcg
    rw [← h₀] at hadd
    unfold synAdd at hadd
    simp only [Except.ok.injEq] at hadd
    rw [hsts, ← hadd]
  · intro s attrs
    unfold classifyShapeColor synMem
    dsimp only
    rw [contains_append_generic s "excitatory" (by decide),
        contains_append_generic s "inhibitory" (by decide),
        contains_append_generic s "dummy" (by decide)]

/-- C10: the built graph is a `DiGraph` in the strict sense — at most one
edge per ordered node pair (part 1: edge keys are duplicate-free in every
successful build); a bidirectional self-loop adds a single edge (part 2);
and a projection whose ordered pair already has an edge overwrites that
edge's attributes rather than adding a second edge (part 3). -/
theorem c10_digraph_edge_semantics :
    (∀ (name : String) (network : Network) (G : Graph),
        createGraph [(name, network)] = .ok G → (G.edges.map Prod.fst).Nodup)
  ∧ (∀ (G G' : Graph) (proj : Projection) (sts sts' : List (String × SynTypes))
        (network : Network) (attrs : EdgeAttrs),
        proj.directionality = some "bidirectional" →
        proj.presynaptic = proj.postsynaptic →
        getKey? G.edges (proj.presynaptic, proj.presynaptic) = none →
        getEdgeAttributes (proj.synapse.getD "generic") proj (projStyle proj) network
          = .ok attrs →
        addProjection G proj sts network = .ok (G', sts') →
        getKey? G'.edges (proj.presynaptic, proj.presynaptic) = some attrs ∧
        G'.edges.length = G.edges.length + 1)
  ∧ (∀ (G G' : Graph) (proj : Projection) (sts sts' : List (String × SynTypes))
        (network : Network) (attrs old : EdgeAttrs),
        proj.directionality ≠ some "bidirectional" →
        getKey? G.edges (proj.presynaptic, proj.postsynaptic) = some old →
        getEdgeAttributes (proj.synapse.getD "generic") proj (projStyle proj) network
          = .ok attrs →
        addProjection G proj sts network = .ok (G', sts') →
        getKey? G'.edges (proj.presynaptic, proj.postsynaptic) = some attrs ∧
        G'.edges.length = G.edges.length) := by
  refine ⟨?_, ?_, ?_⟩
  · intro name network G hok
    unfold createGraph at hok
    dsimp only at hok
    cases hb : buildSteps network with
    | error err =>
      rw [hb] at hok
      simp [Except.map] at hok
    | ok r =>
      rw [hb] at hok
      simp only [Except.map, Except.ok.injEq] at hok
      subst hok
      exact (keysNodup_buildSteps network r.1 r.2 (by rw [hb])).2
  · intro G G' proj sts sts' network attrs hdir heq hnone hattrs hok
    obtain ⟨attrs₀, st, cat, st₁, hattrs₀, hst, hcat, hadd, hsts, hG⟩ :=
      addProjection_ok_elim G proj sts network G' sts' hok
    rw [hattrs] at hattrs₀
    injection hattrs₀ with h₀
    subst h₀
    subst hG
    simp only [hdir, if_true]
    rw [← heq]
    constructor
    · rw [addEdge_edges, addEdge_edges]
      exact getKey?_setKey_self _ _ _
    · rw [addEdge_edges, addEdge_edges]
      rw [length_setKey_of_some _ _ _ attrs
        (getKey?_setKey_self G.edges (proj.presynaptic, proj.presynaptic) attrs)]
      rw [setKey_of_getKey?_none _ _ _ hnone]
      simp
  · intro G G' proj sts sts' network attrs old hdir hsome hattrs hok
    obtain ⟨attrs₀, st, cat, st₁, hattrs₀, hst, hcat, hadd, hsts, hG⟩ :=
      addProjection_ok_elim G proj sts network G' sts' hok
    rw [hattrs] at hattrs₀
    injection hattrs₀ with h₀
    subst h₀
    subst hG
    simp only [hdir, if_false]
    constructor
    · rw [addEdge_edges]
      exact getKey?_setKey_self _ _ _
    · rw [addEdge_edges]
      exact length_setKey_of_some _ _ _ old hsome

/-- C2 witness: the amended bidirectional theorem at a concrete
two-population graph and projection. -/
theorem c2_bidirectional_two_edges_witness :
    getKey? twoPopGraphBidi.edges ("P", "Q") = some ampaAttrs ∧
    getKey? twoPopGraphBidi.edges ("Q", "P") = some ampaAttrs ∧
    twoPopGraphBidi.edges.countP
      (fun e => decide (e.1 = ("P", "Q")) || decide (e.1 = ("Q", "P"))) = 2 :=
  c2_bidirectional_two_edges twoPopGraph twoPopGraphBidi bidiProj twoPopSts
    [("P", .set ["excitatory"]), ("Q", .set [])] c1Model ampaAttrs
    rfl (by decide) rfl rfl (by decide) (by decide)

/-- C3 witness: the concrete model with the unknown presynaptic id "X"
fails with exactly that id. -/
theorem c3_missing_presynaptic_fails_witness :
    buildSteps c3bModel = .error (.keyError "X") :=
  c3_missing_presynaptic_fails c3bModel
    { presynaptic := "X", postsynaptic := "P", synapse := some "ampaSyn",
      probability := none, directionality := none, weight := none, delay := none }
    [] "ampaSyn" rfl rfl rfl
    (by
      intro e he
      simp only [c3bModel, List.mem_singleton] at he
      subst he
      exact ⟨.rgba 0 0 1 1, by decide⟩)
    (by decide)

/-- C5 witness: the ampaSyn dispatch case at a concrete projection. -/
theorem c5_resolver_dispatch_witness :
    getEdgeAttributes "ampaSyn" onlySynapseProj "solid" c1Model
      = .ok { synapse := "ampaSyn", style := "solid", arrowstyle := some "-|>",
              color := .named "blue", info := some (formatEdgeInfo onlySynapseProj),
              synapse_category := some "excitatory" } :=
  (c5_resolver_dispatch onlySynapseProj "solid" c1Model "ampaSyn" rfl).1 rfl

/-- C7 witness: the invariant applied to the graph built from `c7Model`,
instantiated at its input edge. -/
theorem c7_node_edge_attribute_invariant_witness :
    (inputEdgeW.2.info.isSome ∧ inputEdgeW.2.synapse_category.isSome) ∨
    (inputEdgeW.2.synapse = "input" ∧ inputEdgeW.2.info = none ∧
      inputEdgeW.2.synapse_category = none) :=
  (c7_node_edge_attribute_invariant "net" c7Model c7Graph
      (by unfold ModelRefsOk; decide) (by decide)).2
    inputEdgeW (by decide)

/-- C8 witness: the recording branch at the concrete generic projection
of `c8Model`. -/
theorem c8_generic_category_recorded_but_inert_witness :
    ([("P", SynTypes.set ["generic"]), ("Q", SynTypes.set [])] : List (String × SynTypes))
      = setKey twoPopSts "P"
          (.set (if List.contains [] "generic" then [] else [] ++ ["generic"])) :=
  c8_generic_category_recorded_but_inert.1 twoPopGraph twoPopGraphGen genericProj
    twoPopSts [("P", .set ["generic"]), ("Q", .set [])] c8Model []
    rfl rfl (by decide)

/-- C10 witness: the self-loop part at the concrete one-population graph. -/
theorem c10_digraph_edge_semantics_witness :
    getKey? onePopGraphLoop.edges ("P", "P") = some ampaAttrs ∧
    onePopGraphLoop.edges.length = onePopGraph.edges.length + 1 :=
  c10_digraph_edge_semantics.2.1 onePopGraph onePopGraphLoop selfLoopProj onePopSts
    [("P", .set ["excitatory"])] c2Model ampaAttrs rfl rfl rfl (by decide) (by decide)

end NNGraph
